import Mathlib

/-!
Shallow embedding of the core of `github_rss_aggregator.py` (a GitHub
release-feed aggregator): the per-repository fetch (`fetch_repo_releases`),
the concurrent fan-out and merge (`fetch_all_releases`), the TTL cache
(`get_cached_data`, the `/refresh` route, startup warm-up), and the
auto-refresh background worker (`auto_refresh_worker`,
`restart_auto_refresh`, `stop_auto_refresh`).

Modelling conventions:
- Network effects are parameters: each repository's HTTP HEAD outcome and
  feed-parse outcome are supplied by oracle functions, and `html.unescape`
  is an arbitrary string function.
- Timestamps handled by the cache (`time.time()`) are integers; the
  `updated` field of a feed entry is a string, compared exactly as Python
  compares strings (lexicographically by code point).
- The whole body of `get_cached_data` runs under `cache['lock']`, so
  concurrent calls are serialized; the model makes each call one atomic
  step on the cache state and counts the `fetch_all_releases` invocations
  that the call performs.
- The scheduler (`auto_refresh_worker` threads and the shared boolean flag
  `auto_refresh_running`) is modelled as a transition system on a global
  state; each event is one atomic region of the Python code.
-/

namespace Agg

/-- `REQUEST_TIMEOUT = 10` (seconds), the module-level constant. -/
def REQUEST_TIMEOUT : Nat := 10

/-- Python's string comparison on the underlying code-point lists:
lexicographic, used by `all_entries.sort(key=lambda x: x["updated"], ...)`. -/
def charListLe : List Char → List Char → Bool
  | [], _ => true
  | _ :: _, [] => false
  | a :: as, b :: bs =>
    if a.toNat < b.toNat then true
    else if b.toNat < a.toNat then false
    else charListLe as bs

/-- `a <= b` on strings, exactly Python's comparison of the sort keys. -/
def strLe (a b : String) : Bool :=
  charListLe a.data b.data

/-- Raw fields that `feedparser` exposes on one feed entry; `none` models an
absent key/attribute, matching the `entry.get(...)`/`hasattr` accesses in
`fetch_repo_releases`.  `authorDetailName` is `some n` when
`entry.author_detail` is truthy and carries `name` default `''` as `n`. -/
structure FeedEntry where
  title : Option String
  link : Option String
  updated : Option String
  published : Option String
  authorDetailName : Option String
  author : Option String
  summary : Option String
  description : Option String
  id : Option String
deriving DecidableEq

/-- Outcome of the `requests.head(url, ...)` existence check:
one of the exceptions caught at the bottom of `fetch_repo_releases`,
or a status code. -/
inductive HeadResult where
  | timedOut
  | connError
  | reqError
  | status (code : Nat)
deriving DecidableEq

/-- Outcome of `feedparser.parse(url)`: an exception (caught by the broad
`except Exception` handler), or a feed whose `entries` list is given.
A missing `entries` attribute is modelled as `feed []`. -/
inductive ParseResult where
  | raised
  | feed (entries : List FeedEntry)
deriving DecidableEq

/-- One outgoing HTTP request issued by `fetch_repo_releases`, recording the
timeout passed to the library call (`none` when no timeout is given). -/
inductive Request where
  | headCheck (url : String) (timeout : Option Nat)
  | contentFetch (url : String) (timeout : Option Nat)
deriving DecidableEq

/-- The timeout carried by a request. -/
def Request.timeout : Request → Option Nat
  | .headCheck _ t => t
  | .contentFetch _ t => t

/-- Whether a request is the `requests.head` existence check. -/
def Request.isHead : Request → Bool
  | .headCheck _ _ => true
  | .contentFetch _ _ => false

/-- Whether a request is the content fetch performed inside
`feedparser.parse(url)`. -/
def Request.isContent : Request → Bool
  | .headCheck _ _ => false
  | .contentFetch _ _ => true

/-- The `entry_data` dict built in `fetch_repo_releases`. -/
structure EntryData where
  title : String
  link : String
  updated : String
  author : String
  summary : String
  repo : String
  id : String
deriving DecidableEq

/-- `entry.get('summary', entry.get('description', ''))`. -/
def effectiveSummary (e : FeedEntry) : String :=
  match e.summary with
  | some s => s
  | none =>
    match e.description with
    | some d => d
    | none => ""

/-- `entry.get('updated', entry.get('published', ''))`. -/
def effectiveUpdated (e : FeedEntry) : String :=
  match e.updated with
  | some u => u
  | none =>
    match e.published with
    | some p => p
    | none => ""

/-- `repo.split('/')[-1] if '/' in repo else repo`. -/
def repoShortName (repo : String) : String :=
  if repo.contains '/' then (repo.splitOn "/").getLastD repo else repo

/-- Construction of `entry_data` from the first feed entry, with `unescape`
standing for `html.unescape` and `now` for the
`datetime.now(timezone.utc).isoformat()` fallback. -/
def buildEntryData (unescape : String → String) (now : String) (repo : String)
    (e : FeedEntry) : EntryData :=
  let updated0 := effectiveUpdated e
  let updated_time := if updated0 = "" then now else updated0
  let author_name :=
    match e.authorDetailName with
    | some n => n
    | none =>
      match e.author with
      | some a => a
      | none => ""
  let summary0 := effectiveSummary e
  let summary :=
    if summary0 = "" then summary0
    else
      let s := unescape summary0
      if 500 < s.length then s.take 500 ++ "..." else s
  let original_title :=
    match e.title with
    | some t => t
    | none => "新发布"
  { title := repoShortName repo ++ " - " ++ original_title
    link :=
      match e.link with
      | some l => l
      | none => "https://github.com/" ++ repo ++ "/releases"
    updated := updated_time
    author := author_name
    summary := summary
    repo := repo
    id :=
      match e.id with
      | some i => i
      | none =>
        match e.link with
        | some l => l
        | none => "" }

/-- `fetch_repo_releases(repo)`: returns the `entries` list (empty on any
failure, at most one element on success) together with the trace of HTTP
requests issued.  The `requests.head` call carries
`timeout=REQUEST_TIMEOUT`; `feedparser.parse(url)` is invoked with no
timeout argument, so its content fetch carries none.  Every exception is
caught by the handlers at the end of the Python function, which fall
through to `return entries`. -/
def fetch_repo_releases (unescape : String → String) (now : String)
    (repo : String) (head : HeadResult) (parse : ParseResult) :
    List EntryData × List Request :=
  let url := "https://github.com/" ++ repo ++ "/releases.atom"
  let headReq := Request.headCheck url (some REQUEST_TIMEOUT)
  match head with
  | .timedOut => ([], [headReq])
  | .connError => ([], [headReq])
  | .reqError => ([], [headReq])
  | .status code =>
    if code = 404 then ([], [headReq])
    else if code ≠ 200 then ([], [headReq])
    else
      let parseReq := Request.contentFetch url none
      match parse with
      | .raised => ([], [headReq, parseReq])
      | .feed [] => ([], [headReq, parseReq])
      | .feed (e :: _) =>
        ([buildEntryData unescape now repo e], [headReq, parseReq])

/-- Descending order on merged entries: `a` may precede `b` iff
`b.updated <= a.updated` as Python strings.  This is the order enforced by
`all_entries.sort(key=lambda x: x["updated"], reverse=True)`. -/
def entryGe (a b : EntryData) : Bool :=
  strLe b.updated a.updated

/-- Stable insertion of an entry into a descending-sorted list. -/
def insertDesc (x : EntryData) : List EntryData → List EntryData
  | [] => [x]
  | y :: ys => if entryGe x y then x :: y :: ys else y :: insertDesc x ys

/-- Stable descending sort by the `updated` key; extensionally equal to
Python's stable `list.sort(key=lambda x: x["updated"], reverse=True)`. -/
def sortDesc : List EntryData → List EntryData
  | [] => []
  | x :: xs => insertDesc x (sortDesc xs)

/-- Whether a repository's round succeeded with a non-empty release history:
the HEAD check returned 200 and the parsed feed had at least one entry.
Exactly in this case `fetch_repo_releases` returns one entry. -/
def fetchSucceeded : HeadResult → ParseResult → Bool
  | .status 200, .feed (_ :: _) => true
  | _, _ => false

/-- `fetch_all_releases()`: early `return []` when the repo list is empty,
otherwise one `fetch_repo_releases` per list element (fan out over the
thread pool; `future.result()` cannot raise because `fetch_repo_releases`
catches every exception), `all_entries.extend(entries)` for each result,
and finally the stable descending sort by `updated`.  The `as_completed`
collection order only permutes `all_entries` before the sort; the model
collects in submission order. -/
def fetch_all_releases (unescape : String → String) (now : String)
    (head : String → HeadResult) (parse : String → ParseResult)
    (repos : List String) : List EntryData :=
  if repos.isEmpty then []
  else
    sortDesc
      ((repos.map
        (fun r => (fetch_repo_releases unescape now r (head r) (parse r)).1)).flatten)

/-- The global `cache` dict (minus the lock): `data` (`None` before the
first build) and `timestamp` (`0` before the first build).  `R` abstracts
the RSS XML bytes produced by `create_rss_feed`; the cache never inspects
them. -/
structure CacheState (R : Type) where
  data : Option R
  timestamp : Int
deriving DecidableEq

/-- Cache clearing, as performed by the `/refresh` route and by each
auto-refresh tick: `cache['data'] = None; cache['timestamp'] = 0`. -/
def clear_cache {R : Type} (_ : CacheState R) : CacheState R :=
  { data := none, timestamp := 0 }

/-- Storing a freshly built feed, as performed by `startup_cache_warmup`,
the `/refresh` route, each auto-refresh tick and the miss branch of
`get_cached_data`: `cache['data'] = rss_xml; cache['timestamp'] = now`. -/
def store_cache {R : Type} (rss : R) (now : Int) (_ : CacheState R) :
    CacheState R :=
  { data := some rss, timestamp := now }

/-- Result of one `get_cached_data()` call: the cache state on exit, the
returned bytes, and the number of `fetch_all_releases` invocations the call
performed (0 on a hit, 1 on a miss). -/
structure GetOutcome (R : Type) where
  state : CacheState R
  output : R
  fetchCount : Nat
deriving DecidableEq

/-- `get_cached_data()`.  The whole body runs under `cache['lock']`, so a
call is one atomic step.  `cache_duration` is `settings['cache_duration']`,
`now` is the `current_time = time.time()` read at entry, and `rebuild` is
the value `create_rss_feed(fetch_all_releases())` that the miss branch
would compute during this call. -/
def get_cached_data {R : Type} (cache_duration : Int) (rebuild : R)
    (now : Int) (st : CacheState R) : GetOutcome R :=
  match st.data with
  | some d =>
    if now - st.timestamp < cache_duration then
      { state := st, output := d, fetchCount := 0 }
    else
      { state := store_cache rebuild now st, output := rebuild, fetchCount := 1 }
  | none =>
    { state := store_cache rebuild now st, output := rebuild, fetchCount := 1 }

/-- A sequence of `get_cached_data` calls in the order the lock serializes
them; each call brings its own observed time and its own would-be rebuild
value.  Returns the final cache state, the list of returned values, and the
total number of `fetch_all_releases` invocations. -/
def run_gets {R : Type} (cache_duration : Int) :
    List (Int × R) → CacheState R → CacheState R × List R × Nat
  | [], st => (st, [], 0)
  | c :: rest, st =>
    let o := get_cached_data cache_duration c.2 c.1 st
    let r := run_gets cache_duration rest o.state
    (r.1, o.output :: r.2.1, o.fetchCount + r.2.2)

/-- The `CacheEntry` invariant claimed by the spec: the cached result is
non-null iff the stored build timestamp is positive. -/
def cacheInv {R : Type} (st : CacheState R) : Prop :=
  st.data ≠ none ↔ 0 < st.timestamp

/-- The mutable `settings` dict consumed by the core. -/
structure Settings where
  cache_duration : Int
  auto_refresh_interval : Int
  startup_refresh : Bool
deriving DecidableEq

/-- The module-level mutable state shared between the Flask routes and the
auto-refresh threads: `settings`, `cache`, the boolean flag
`auto_refresh_running`, and the set of worker threads still inside the
`auto_refresh_worker` loop (`live_workers`, identified by spawn order;
`refresh_thread` always refers to the most recently spawned one).
`fetch_count` is a ghost counter of `fetch_all_releases` invocations
performed by worker ticks. -/
structure AppState (R : Type) where
  settings : Settings
  cache : CacheState R
  auto_refresh_running : Bool
  live_workers : List Nat
  fetch_count : Nat
deriving DecidableEq

/-- Entry of `auto_refresh_worker` in a newly spawned thread (the effect of
`start_auto_refresh()`): the first statement sets the shared flag
`auto_refresh_running = True`, and the thread enters its `while` loop. -/
def worker_enter {R : Type} (id : Nat) (st : AppState R) : AppState R :=
  { st with auto_refresh_running := true, live_workers := id :: st.live_workers }

/-- One wake-up of worker `id` from `time.sleep(interval)`.  The worker
reads the shared flag `auto_refresh_running`: if it is `True` the worker
clears the cache, calls `fetch_all_releases`, stores the rebuilt feed with
a fresh timestamp and stays in its loop; if it is `False` it skips the
rebuild and its `while` guard terminates the loop.  The flag is global:
nothing ties it to the worker that reads it. -/
def worker_tick {R : Type} (id : Nat) (rb : R) (now : Int) (st : AppState R) :
    AppState R :=
  if id ∈ st.live_workers then
    if st.auto_refresh_running then
      { st with cache := store_cache rb now (clear_cache st.cache),
                fetch_count := st.fetch_count + 1 }
    else
      { st with live_workers := st.live_workers.erase id }
  else st

/-- The `/stop_auto_refresh` route: `auto_refresh_running = False`. -/
def stop_auto_refresh {R : Type} (st : AppState R) : AppState R :=
  { st with auto_refresh_running := false }

/-- `restart_auto_refresh()`: if the flag is set, clear it and
`time.sleep(1)` (a sleeping worker whose interval has not elapsed does not
wake during that second, so no event is interposed), then spawn a new
worker thread, whose body immediately sets the flag back to `True`. -/
def restart_auto_refresh {R : Type} (newId : Nat) (st : AppState R) :
    AppState R :=
  worker_enter newId (if st.auto_refresh_running then stop_auto_refresh st else st)

/-- A merged list is in the order produced by
`sort(key=lambda x: x["updated"], reverse=True)`: pairwise non-increasing
`updated` keys. -/
def SortedDesc (l : List EntryData) : Prop :=
  l.Pairwise (fun a b => entryGe a b = true)

/-- The four `FetchError` kinds of the spec, as they arise in
`fetch_repo_releases`: Timeout is `requests.exceptions.Timeout` on the HEAD
check, Unreachable is `requests.exceptions.ConnectionError`, NotFound is a
404 status from the HEAD check, and Malformed is an exception raised while
parsing the feed. -/
def errorOutcome (h : HeadResult) (p : ParseResult) : Bool :=
  match h with
  | .timedOut => true
  | .connError => true
  | .reqError => false
  | .status code =>
    if code = 404 then true
    else
      match p with
      | .raised => true
      | .feed _ => false

theorem charListLe_total : ∀ as bs : List Char,
    (charListLe as bs || charListLe bs as) = true := by
  intro as
  induction as with
  | nil => intro bs; simp [charListLe]
  | cons a as ih =>
    intro bs
    cases bs with
    | nil => simp [charListLe]
    | cons b bs =>
      by_cases hab : a.toNat < b.toNat
      · simp [charListLe, hab]
      · by_cases hba : b.toNat < a.toNat
        · simp [charListLe, hab, hba]
        · simpa [charListLe, hab, hba] using ih bs

theorem charListLe_trans : ∀ as bs cs : List Char,
    charListLe as bs = true → charListLe bs cs = true →
    charListLe as cs = true := by
  intro as
  induction as with
  | nil => intro bs cs _ _; simp [charListLe]
  | cons a as ih =>
    intro bs cs h1 h2
    cases bs with
    | nil => simp [charListLe] at h1
    | cons b bs =>
      cases cs with
      | nil => simp [charListLe] at h2
      | cons c cs =>
        simp only [charListLe] at h1 h2 ⊢
        split_ifs at h1 h2 ⊢ with g1 g2 g3 g4 g5 g6 <;>
          first
          | rfl
          | omega
          | (exact ih bs cs h1 h2)

theorem strLe_total (a b : String) : (strLe a b || strLe b a) = true :=
  charListLe_total a.data b.data

theorem strLe_trans (a b c : String) (h1 : strLe a b = true)
    (h2 : strLe b c = true) : strLe a c = true :=
  charListLe_trans a.data b.data c.data h1 h2

theorem entryGe_total (a b : EntryData) : (entryGe a b || entryGe b a) = true :=
  strLe_total b.updated a.updated

theorem entryGe_trans (a b c : EntryData) (h1 : entryGe a b = true)
    (h2 : entryGe b c = true) : entryGe a c = true :=
  strLe_trans c.updated b.updated a.updated h2 h1

theorem insertDesc_perm (x : EntryData) : ∀ l : List EntryData,
    (insertDesc x l).Perm (x :: l) := by
  intro l
  induction l with
  | nil => simp [insertDesc]
  | cons y ys ih =>
    by_cases h : entryGe x y = true
    · simp [insertDesc, h]
    · simp only [insertDesc, h, if_neg, Bool.not_eq_true]
      exact (List.Perm.cons y ih).trans (List.Perm.swap x y ys)

theorem sortDesc_perm : ∀ l : List EntryData, (sortDesc l).Perm l := by
  intro l
  induction l with
  | nil => simp [sortDesc]
  | cons x xs ih =>
    exact (insertDesc_perm x (sortDesc xs)).trans (List.Perm.cons x ih)

theorem insertDesc_sorted (x : EntryData) (l : List EntryData)
    (hl : SortedDesc l) : SortedDesc (insertDesc x l) := by
  induction l with
  | nil => simp [insertDesc, SortedDesc]
  | cons y ys ih =>
    rcases (List.pairwise_cons.mp hl) with ⟨hy, hys⟩
    unfold SortedDesc
    simp only [insertDesc]
    by_cases h : entryGe x y = true
    · rw [if_pos h]
      refine List.pairwise_cons.mpr ⟨?_, hl⟩
      intro b hb
      rcases List.mem_cons.mp hb with rfl | hb2
      · exact h
      · exact entryGe_trans x y b h (hy b hb2)
    · have hyx : entryGe y x = true := by
        have := entryGe_total x y
        simp [h] at this
        exact this
      rw [if_neg h]
      refine List.pairwise_cons.mpr ⟨?_, ih hys⟩
      intro b hb
      have hb' : b ∈ x :: ys := (insertDesc_perm x ys).mem_iff.mp hb
      rcases List.mem_cons.mp hb' with rfl | hb2
      · exact hyx
      · exact hy b hb2

theorem sortDesc_sorted : ∀ l : List EntryData, SortedDesc (sortDesc l) := by
  intro l
  induction l with
  | nil => simp [sortDesc, SortedDesc]
  | cons x xs ih => exact insertDesc_sorted x (sortDesc xs) ih

theorem fetch_repo_entries_repo (unescape : String → String) (now repo : String)
    (h : HeadResult) (p : ParseResult) :
    ∀ e ∈ (fetch_repo_releases unescape now repo h p).1, e.repo = repo := by
  intro e he
  cases h with
  | timedOut => simp [fetch_repo_releases] at he
  | connError => simp [fetch_repo_releases] at he
  | reqError => simp [fetch_repo_releases] at he
  | status code =>
    by_cases h404 : code = 404
    · simp [fetch_repo_releases, h404] at he
    · by_cases h200 : code = 200
      · cases p with
        | raised => simp [fetch_repo_releases, h404, h200] at he
        | feed entries =>
          cases entries with
          | nil => simp [fetch_repo_releases, h404, h200] at he
          | cons e0 rest =>
            simp [fetch_repo_releases, h404, h200] at he
            subst he
            rfl
      · simp [fetch_repo_releases, h404, h200] at he

theorem fetch_repo_length (unescape : String → String) (now repo : String)
    (h : HeadResult) (p : ParseResult) :
    (fetch_repo_releases unescape now repo h p).1.length
      = if fetchSucceeded h p then 1 else 0 := by
  cases h with
  | timedOut => simp [fetch_repo_releases, fetchSucceeded]
  | connError => simp [fetch_repo_releases, fetchSucceeded]
  | reqError => simp [fetch_repo_releases, fetchSucceeded]
  | status code =>
    by_cases h404 : code = 404
    · subst h404; cases p with
      | raised => simp [fetch_repo_releases, fetchSucceeded]
      | feed entries => cases entries <;> simp [fetch_repo_releases, fetchSucceeded]
    · by_cases h200 : code = 200
      · subst h200; cases p with
        | raised => simp [fetch_repo_releases, fetchSucceeded]
        | feed entries =>
          cases entries <;> simp [fetch_repo_releases, fetchSucceeded, h404]
      · cases p with
        | raised => simp [fetch_repo_releases, fetchSucceeded, h404, h200]
        | feed entries =>
          cases entries <;> simp [fetch_repo_releases, fetchSucceeded, h404, h200]

theorem flatten_filter_eq_nil (f : String → List EntryData)
    (hf : ∀ r : String, ∀ e ∈ f r, e.repo = r) (r : String) :
    ∀ repos : List String, r ∉ repos →
      ((repos.map f).flatten).filter (fun e => e.repo == r) = [] := by
  intro repos
  induction repos with
  | nil => intro _; simp
  | cons s ss ih =>
    intro hr
    have hrs : r ≠ s := fun h => hr (h ▸ List.mem_cons_self s ss)
    have hrss : r ∉ ss := fun h => hr (List.mem_cons_of_mem s h)
    simp only [List.map_cons, List.flatten_cons, List.filter_append, ih hrss,
      List.append_nil]
    apply List.filter_eq_nil_iff.mpr
    intro e he
    have : e.repo = s := hf s e he
    simp [this, hrs.symm]

theorem flatten_filter_succ_count (f : String → List EntryData)
    (hf : ∀ r : String, ∀ e ∈ f r, e.repo = r) (r : String) :
    ∀ repos : List String, repos.Nodup → r ∈ repos →
      (((repos.map f).flatten).filter (fun e => e.repo == r)).length
        = (f r).length := by
  intro repos
  induction repos with
  | nil => intro _ hr; simp at hr
  | cons s ss ih =>
    intro hnd hr
    have hnds := List.nodup_cons.mp hnd
    simp only [List.map_cons, List.flatten_cons, List.filter_append,
      List.length_append]
    rcases List.mem_cons.mp hr with rfl | hrss
    · have h1 : (f r).filter (fun e => e.repo == r) = f r := by
        apply List.filter_eq_self.mpr
        intro e he
        simp [hf r e he]
      have h2 : ((ss.map f).flatten).filter (fun e => e.repo == r) = [] :=
        flatten_filter_eq_nil f hf r ss hnds.1
      simp [h1, h2]
    · have hsr : s ≠ r := by
        intro h
        exact hnds.1 (h ▸ hrss)
      have h1 : (f s).filter (fun e => e.repo == r) = [] := by
        apply List.filter_eq_nil_iff.mpr
        intro e he
        have : e.repo = s := hf s e he
        simp [this, hsr]
      rw [h1]
      simp only [List.length_nil, Nat.zero_add]
      exact ih hnds.2 hrss

theorem fetch_all_mem_repo (unescape : String → String) (now : String)
    (hd : String → HeadResult) (pr : String → ParseResult)
    (repos : List String) :
    ∀ e ∈ fetch_all_releases unescape now hd pr repos, e.repo ∈ repos := by
  intro e he
  unfold fetch_all_releases at he
  by_cases hemp : repos.isEmpty
  · simp [hemp] at he
  · rw [if_neg hemp] at he
    have he2 := (sortDesc_perm _).mem_iff.mp he
    rcases List.mem_flatten.mp he2 with ⟨l, hl, hel⟩
    rcases List.mem_map.mp hl with ⟨r, hr, rfl⟩
    have := fetch_repo_entries_repo unescape now r (hd r) (pr r) e hel
    rw [this]
    exact hr

/-- C1 (amended to distinct identifiers): for every list of distinct source
identifiers, `fetch_all_releases` returns a merged list sorted by the
`updated` key in descending order, containing exactly one item for each
source whose fetch succeeded with a non-empty release history and zero
items for each source that failed or had no releases, and no items from
outside the list. -/
theorem fetch_all_sorted_one_per_source (unescape : String → String)
    (now : String) (hd : String → HeadResult) (pr : String → ParseResult)
    (repos : List String) (hnd : repos.Nodup) :
    SortedDesc (fetch_all_releases unescape now hd pr repos)
    ∧ (∀ r ∈ repos,
        ((fetch_all_releases unescape now hd pr repos).filter
            (fun e => e.repo == r)).length
          = if fetchSucceeded (hd r) (pr r) then 1 else 0)
    ∧ (∀ e ∈ fetch_all_releases unescape now hd pr repos, e.repo ∈ repos) := by
  refine ⟨?_, ?_, fetch_all_mem_repo unescape now hd pr repos⟩
  · unfold fetch_all_releases
    by_cases hemp : repos.isEmpty
    · simp [hemp, SortedDesc]
    · rw [if_neg hemp]
      exact sortDesc_sorted _
  · intro r hr
    have hemp : ¬repos.isEmpty := by
      intro h
      rw [List.isEmpty_iff.mp h] at hr
      simp at hr
    unfold fetch_all_releases
    rw [if_neg hemp]
    have hperm :=
      ((sortDesc_perm
        ((repos.map (fun s =>
          (fetch_repo_releases unescape now s (hd s) (pr s)).1)).flatten)).filter
        (fun e => e.repo == r)).length_eq
    rw [hperm]
    rw [flatten_filter_succ_count _
      (fun s e he => fetch_repo_entries_repo unescape now s (hd s) (pr s) e he)
      r repos hnd hr]
    exact fetch_repo_length unescape now r (hd r) (pr r)

/-- C1 witness: a concrete two-source run (one success, one timeout)
instantiating `fetch_all_sorted_one_per_source`. -/
theorem fetch_all_sorted_one_per_source_witness :
    (["a/x", "b/y"] : List String).Nodup
    ∧ (SortedDesc (fetch_all_releases (fun s => s) "2024"
          (fun r => if r = "a/x" then HeadResult.status 200 else HeadResult.timedOut)
          (fun _ => ParseResult.feed [⟨none, none, none, none, none, none, none, none, none⟩])
          ["a/x", "b/y"])
        ∧ (∀ r ∈ (["a/x", "b/y"] : List String),
            ((fetch_all_releases (fun s => s) "2024"
                (fun r => if r = "a/x" then HeadResult.status 200 else HeadResult.timedOut)
                (fun _ => ParseResult.feed [⟨none, none, none, none, none, none, none, none, none⟩])
                ["a/x", "b/y"]).filter (fun e => e.repo == r)).length
              = if fetchSucceeded
                    (if r = "a/x" then HeadResult.status 200 else HeadResult.timedOut)
                    (ParseResult.feed [⟨none, none, none, none, none, none, none, none, none⟩])
                  then 1 else 0)
        ∧ (∀ e ∈ fetch_all_releases (fun s => s) "2024"
              (fun r => if r = "a/x" then HeadResult.status 200 else HeadResult.timedOut)
              (fun _ => ParseResult.feed [⟨none, none, none, none, none, none, none, none, none⟩])
              ["a/x", "b/y"], e.repo ∈ (["a/x", "b/y"] : List String))) :=
  ⟨by decide,
   fetch_all_sorted_one_per_source (fun s => s) "2024"
     (fun r => if r = "a/x" then HeadResult.status 200 else HeadResult.timedOut)
     (fun _ => ParseResult.feed [⟨none, none, none, none, none, none, none, none, none⟩])
     ["a/x", "b/y"] (by decide)⟩

/-- C1 counterexample to the claim as stated (over arbitrary input lists):
with the duplicated input list `["a/x", "a/x"]` and a source that succeeds
with a non-empty release history, the merged list contains two items for
that source, not exactly one. -/
theorem fetch_all_duplicate_counterexample :
    fetchSucceeded (HeadResult.status 200)
        (ParseResult.feed [⟨none, none, none, none, none, none, none, none, none⟩]) = true
    ∧ ((fetch_all_releases (fun s => s) "2024" (fun _ => HeadResult.status 200)
          (fun _ => ParseResult.feed [⟨none, none, none, none, none, none, none, none, none⟩])
          ["a/x", "a/x"]).filter (fun e => e.repo == "a/x")).length = 2 := by
  constructor
  · rfl
  · unfold fetch_all_releases
    rw [if_neg (by decide)]
    rw [((sortDesc_perm _).filter (fun e => e.repo == "a/x")).length_eq]
    have hone : ∀ l : List FeedEntry, l ≠ [] → ∀ u nw,
        ((fetch_repo_releases u nw "a/x" (HeadResult.status 200)
            (ParseResult.feed l)).1.filter (fun e => e.repo == "a/x")).length = 1 := by
      intro l hl u nw
      have hself : (fetch_repo_releases u nw "a/x" (HeadResult.status 200)
          (ParseResult.feed l)).1.filter (fun e => e.repo == "a/x")
          = (fetch_repo_releases u nw "a/x" (HeadResult.status 200)
              (ParseResult.feed l)).1 := by
        apply List.filter_eq_self.mpr
        intro e he
        simp [fetch_repo_entries_repo u nw "a/x" _ _ e he]
      rw [hself, fetch_repo_length]
      cases l with
      | nil => exact absurd rfl hl
      | cons e es => rfl
    simp only [List.map_cons, List.map_nil, List.flatten_cons, List.flatten_nil,
      List.filter_append, List.length_append, List.append_nil, List.filter_nil,
      List.length_nil]
    rw [hone _ (by simp) (fun s => s) "2024"]

theorem run_gets_all_hits {R : Type} (d : Int) (v : R) :
    ∀ (calls : List (Int × R)) (st : CacheState R), st.data = some v →
      (∀ c ∈ calls, (c : Int × R).1 - st.timestamp < d) →
      run_gets d calls st = (st, calls.map (fun _ => v), 0) := by
  intro calls
  induction calls with
  | nil => intro st _ _; simp [run_gets]
  | cons c rest ih =>
    intro st hv hlt
    have hhit : get_cached_data d c.2 c.1 st = ⟨st, v, 0⟩ := by
      unfold get_cached_data
      rw [hv]
      simp [hlt c (List.mem_cons_self c rest)]
    simp [run_gets, hhit,
      ih st hv (fun x hx => hlt x (List.mem_cons_of_mem c hx))]

/-- C2: the body of `get_cached_data` runs entirely under `cache['lock']`,
so N concurrent callers serialize; starting from an invalidated cache
(`data = None`, `timestamp = 0`), the first serialized caller performs the
single `fetch_all_releases` invocation and every other caller that arrives
at the same observed time takes the hit branch and receives the result of
that one in-flight rebuild: the total invocation count is exactly one. -/
theorem single_flight {R : Type} (d : Int) (now : Int) (r : R)
    (others : List R) (st : CacheState R) (hd0 : 0 < d) :
    run_gets d ((now, r) :: others.map (fun x => (now, x))) (clear_cache st)
      = ({ data := some r, timestamp := now }, r :: others.map (fun _ => r), 1) := by
  have hmiss : get_cached_data d r now (clear_cache st)
      = ⟨{ data := some r, timestamp := now }, r, 1⟩ := by
    unfold get_cached_data clear_cache store_cache
    rfl
  have hrest := run_gets_all_hits d r (others.map (fun x => (now, x)))
    { data := some r, timestamp := now } rfl
    (by
      intro c hc
      rcases List.mem_map.mp hc with ⟨x, _, rfl⟩
      simpa using hd0)
  simp only [run_gets, hmiss, hrest, List.map_map]
  rfl

/-- C2 witness: three callers at time 0 with `ttl = 300`, after
invalidation: one rebuild, everyone gets its result. -/
theorem single_flight_witness :
    (0 : Int) < 300
    ∧ run_gets 300 ((0, 7) :: ([8, 9] : List Nat).map (fun x => ((0 : Int), x)))
        (clear_cache ({ data := some 1, timestamp := -5 } : CacheState Nat))
      = ({ data := some 7, timestamp := 0 }, 7 :: ([8, 9] : List Nat).map (fun _ => 7), 1) :=
  ⟨by decide,
   single_flight 300 0 7 [8, 9] { data := some 1, timestamp := -5 } (by decide)⟩

/-- C3: a `get_cached_data` call performs zero `fetch_all_releases`
invocations iff the cached value is non-null and `now - timestamp <
cache_duration`; on a hit the stored value is returned and the entry is
untouched; consequently any sequence of calls whose observed times stay
within the TTL of the stored timestamp returns the identical content with
zero invocations. -/
theorem cache_hit_iff {R : Type} (d : Int) (rb : R) (now : Int)
    (st : CacheState R) :
    ((get_cached_data d rb now st).fetchCount = 0
      ↔ (st.data ≠ none ∧ now - st.timestamp < d))
    ∧ (∀ v : R, st.data = some v → now - st.timestamp < d →
        get_cached_data d rb now st = ⟨st, v, 0⟩)
    ∧ (∀ (v : R) (calls : List (Int × R)), st.data = some v →
        (∀ c ∈ calls, (c : Int × R).1 - st.timestamp < d) →
        run_gets d calls st = (st, calls.map (fun _ => v), 0)) := by
  refine ⟨?_, ?_, fun v calls hv hlt => run_gets_all_hits d v calls st hv hlt⟩
  · unfold get_cached_data
    cases hdata : st.data with
    | none => simp [store_cache]
    | some v =>
      by_cases hlt : now - st.timestamp < d
      · simp [hlt]
      · simp [hlt, store_cache]
  · intro v hv hlt
    unfold get_cached_data
    rw [hv]
    simp [hlt]

/-- C3 witness: `ttl = 300`, entry built at time 10, reads at times 10 and
12: hit, unchanged state, same content, zero fetches. -/
theorem cache_hit_iff_witness :
    (({ data := some 5, timestamp := 10 } : CacheState Nat).data = some 5)
    ∧ ((12 : Int) - 10 < 300)
    ∧ get_cached_data 300 99 12 ({ data := some 5, timestamp := 10 } : CacheState Nat)
        = ⟨{ data := some 5, timestamp := 10 }, 5, 0⟩ :=
  ⟨rfl, by decide,
   (cache_hit_iff 300 99 12 ({ data := some 5, timestamp := 10 } : CacheState Nat)).2.1
     5 rfl (by decide)⟩

/-- C5: every cache-touching operation preserves the invariant
`data ≠ None ↔ timestamp > 0`, given that the wall clock `time.time()` is
positive: clearing (the `/refresh` route's first lock region, the
auto-refresh tick's first lock region), storing a fresh build
(`startup_cache_warmup`, the second lock regions of `/refresh` and the
tick), a `get_cached_data` call (hit or miss), and the clear-then-store
composite. -/
theorem cache_invariant_preserved {R : Type} (d : Int) (rb rss : R)
    (now : Int) (st : CacheState R) (hinv : cacheInv st) (hnow : 0 < now) :
    cacheInv (clear_cache st)
    ∧ cacheInv (store_cache rss now st)
    ∧ cacheInv ((get_cached_data d rb now st).state)
    ∧ cacheInv (store_cache rss now (clear_cache st)) := by
  refine ⟨?_, ?_, ?_, ?_⟩
  · simp [clear_cache, cacheInv]
  · simp [store_cache, cacheInv, hnow]
  · unfold get_cached_data
    cases hdata : st.data with
    | none => simp [store_cache, cacheInv, hnow]
    | some v =>
      by_cases hlt : now - st.timestamp < d
      · simpa [hlt] using hinv
      · simp [hlt, store_cache, cacheInv, hnow]
  · simp [store_cache, clear_cache, cacheInv, hnow]

/-- C5 witness: instantiation at a valid entry and a positive clock. -/
theorem cache_invariant_preserved_witness :
    cacheInv ({ data := some 3, timestamp := 4 } : CacheState Nat)
    ∧ ((0 : Int) < 9)
    ∧ (cacheInv (clear_cache ({ data := some 3, timestamp := 4 } : CacheState Nat))
       ∧ cacheInv (store_cache 8 9 ({ data := some 3, timestamp := 4 } : CacheState Nat))
       ∧ cacheInv ((get_cached_data 300 8 9 ({ data := some 3, timestamp := 4 } : CacheState Nat)).state)
       ∧ cacheInv (store_cache 8 9 (clear_cache ({ data := some 3, timestamp := 4 } : CacheState Nat)))) :=
  ⟨by constructor <;> intro h <;> simp_all [cacheInv], by decide,
   cache_invariant_preserved 300 8 8 9 { data := some 3, timestamp := 4 }
     (by constructor <;> intro h <;> simp_all [cacheInv]) (by decide)⟩

theorem fetch_all_all_failed (unescape : String → String) (now : String)
    (hd : String → HeadResult) (pr : String → ParseResult)
    (repos : List String)
    (hfail : ∀ r ∈ repos, fetchSucceeded (hd r) (pr r) = false) :
    fetch_all_releases unescape now hd pr repos = [] := by
  unfold fetch_all_releases
  by_cases hemp : repos.isEmpty
  · simp [hemp]
  · rw [if_neg hemp]
    have hnil : (repos.map (fun r =>
        (fetch_repo_releases unescape now r (hd r) (pr r)).1)).flatten = [] := by
      apply List.flatten_eq_nil_iff.mpr
      intro l hl
      rcases List.mem_map.mp hl with ⟨r, hr, rfl⟩
      have hlen := fetch_repo_length unescape now r (hd r) (pr r)
      rw [hfail r hr] at hlen
      simp at hlen
      exact hlen
    rw [hnil]
    rfl

/-- C7: when every configured source fails (or none is configured),
`fetch_all_releases` yields `[]`; the miss branch of `get_cached_data`
still stores the feed built from that empty list together with the fresh
timestamp `now`, and a later read within the TTL serves that stored empty
feed as a hit with zero further invocations. -/
theorem empty_result_cached {R : Type} (unescape : String → String)
    (nowStr : String) (hd : String → HeadResult) (pr : String → ParseResult)
    (repos : List String) (mk : List EntryData → R) (d now tnext : Int)
    (st : CacheState R) (rb2 : R) (hmiss : st.data = none)
    (hfail : ∀ r ∈ repos, fetchSucceeded (hd r) (pr r) = false)
    (httl : tnext - now < d) :
    fetch_all_releases unescape nowStr hd pr repos = []
    ∧ get_cached_data d (mk (fetch_all_releases unescape nowStr hd pr repos)) now st
        = ⟨{ data := some (mk []), timestamp := now }, mk [], 1⟩
    ∧ get_cached_data d rb2 tnext
        ({ data := some (mk []), timestamp := now } : CacheState R)
        = ⟨{ data := some (mk []), timestamp := now }, mk [], 0⟩ := by
  have h0 := fetch_all_all_failed unescape nowStr hd pr repos hfail
  refine ⟨h0, ?_, ?_⟩
  · rw [h0]
    unfold get_cached_data
    rw [hmiss]
    rfl
  · unfold get_cached_data
    simp [httl]

/-- C7 witness: one source that times out, `ttl = 300`, miss at time 50,
re-read at time 60. -/
theorem empty_result_cached_witness :
    (({ data := none, timestamp := 0 } : CacheState (List EntryData)).data = none)
    ∧ (∀ r ∈ (["a/x"] : List String),
        fetchSucceeded ((fun _ => HeadResult.timedOut) r)
          ((fun _ => ParseResult.feed []) r) = false)
    ∧ ((60 : Int) - 50 < 300)
    ∧ (fetch_all_releases (fun s => s) "2024" (fun _ => HeadResult.timedOut)
          (fun _ => ParseResult.feed []) ["a/x"] = []
       ∧ get_cached_data 300
           ((fun l => l) (fetch_all_releases (fun s => s) "2024"
             (fun _ => HeadResult.timedOut) (fun _ => ParseResult.feed []) ["a/x"]))
           50 ({ data := none, timestamp := 0 } : CacheState (List EntryData))
           = ⟨{ data := some [], timestamp := 50 }, [], 1⟩
       ∧ get_cached_data 300 ([] : List EntryData) 60
           ({ data := some [], timestamp := 50 } : CacheState (List EntryData))
           = ⟨{ data := some [], timestamp := 50 }, [], 0⟩) :=
  ⟨rfl, by intro r _; rfl, by decide,
   empty_result_cached (fun s => s) "2024" (fun _ => HeadResult.timedOut)
     (fun _ => ParseResult.feed []) ["a/x"] (fun l => l) 300 50 60
     { data := none, timestamp := 0 } [] rfl (by intro r _; rfl) (by decide)⟩

theorem error_entries_nil (unescape : String → String) (now repo : String)
    (h : HeadResult) (p : ParseResult) (herr : errorOutcome h p = true) :
    (fetch_repo_releases unescape now repo h p).1 = [] := by
  cases h with
  | timedOut => rfl
  | connError => rfl
  | reqError => simp [errorOutcome] at herr
  | status code =>
    by_cases h404 : code = 404
    · simp [fetch_repo_releases, h404]
    · by_cases h200 : code = 200
      · cases p with
        | raised => simp [fetch_repo_releases, h404, h200]
        | feed entries => simp [errorOutcome, h404] at herr
      · cases p with
        | raised => simp [fetch_repo_releases, h404, h200]
        | feed entries => simp [fetch_repo_releases, h404, h200]

theorem flatten_map_filter_ne (f : String → List EntryData) (r : String)
    (hfr : f r = []) :
    ∀ repos : List String,
      (((repos.filter (fun s => s != r)).map f)).flatten
        = ((repos.map f)).flatten := by
  intro repos
  induction repos with
  | nil => rfl
  | cons s ss ih =>
    by_cases hs : s = r
    · subst hs
      simp only [List.filter_cons, bne_self_eq_false, Bool.false_eq_true,
        if_false, List.map_cons, List.flatten_cons, ih, hfr, List.nil_append]
    · have hbs : (s != r) = true := by simp [bne, hs]
      simp only [List.filter_cons, hbs, if_true, List.map_cons,
        List.flatten_cons, ih]

/-- C6: a per-source outcome of kind NotFound, Unreachable, Malformed or
Timeout is swallowed inside `fetch_repo_releases` (the `except` handlers
fall through to `return entries`), so the failing source contributes zero
items, the batch result equals the result computed from the remaining
sources alone, and no item of the merged result comes from the failing
source. -/
theorem per_source_error_isolated (unescape : String → String) (now : String)
    (hd : String → HeadResult) (pr : String → ParseResult)
    (repos : List String) (r : String)
    (herr : errorOutcome (hd r) (pr r) = true) :
    (fetch_repo_releases unescape now r (hd r) (pr r)).1 = []
    ∧ fetch_all_releases unescape now hd pr repos
        = fetch_all_releases unescape now hd pr (repos.filter (fun s => s != r))
    ∧ ∀ e ∈ fetch_all_releases unescape now hd pr repos, e.repo ≠ r := by
  have hfr : (fetch_repo_releases unescape now r (hd r) (pr r)).1 = [] :=
    error_entries_nil unescape now r (hd r) (pr r) herr
  have hflat := flatten_map_filter_ne
    (fun s => (fetch_repo_releases unescape now s (hd s) (pr s)).1) r hfr repos
  have heq : fetch_all_releases unescape now hd pr repos
      = fetch_all_releases unescape now hd pr (repos.filter (fun s => s != r)) := by
    unfold fetch_all_releases
    by_cases hemp : repos.isEmpty
    · have h0 : repos = [] := List.isEmpty_iff.mp hemp
      subst h0
      rfl
    · rw [if_neg hemp]
      by_cases hemp2 : (repos.filter (fun s => s != r)).isEmpty
      · rw [if_pos hemp2]
        have h0 : repos.filter (fun s => s != r) = [] := List.isEmpty_iff.mp hemp2
        rw [← hflat, h0]
        rfl
      · rw [if_neg hemp2, ← hflat]
  refine ⟨hfr, heq, ?_⟩
  intro e he
  rw [heq] at he
  have := fetch_all_mem_repo unescape now hd pr (repos.filter (fun s => s != r)) e he
  have hne := List.of_mem_filter this
  intro hcontra
  rw [hcontra] at hne
  simp at hne

/-- C6 witness: two sources, the second times out; its entries are empty,
the batch equals the batch over the first source alone, and no merged item
names the failing source. -/
theorem per_source_error_isolated_witness :
    errorOutcome ((fun r => if r = "a/x" then HeadResult.status 200 else HeadResult.timedOut) "a/y")
        ((fun _ => ParseResult.feed [⟨none, none, none, none, none, none, none, none, none⟩]) "a/y") = true
    ∧ ((fetch_repo_releases (fun s => s) "2024" "a/y"
          ((fun r => if r = "a/x" then HeadResult.status 200 else HeadResult.timedOut) "a/y")
          ((fun _ => ParseResult.feed [⟨none, none, none, none, none, none, none, none, none⟩]) "a/y")).1 = []
       ∧ fetch_all_releases (fun s => s) "2024"
           (fun r => if r = "a/x" then HeadResult.status 200 else HeadResult.timedOut)
           (fun _ => ParseResult.feed [⟨none, none, none, none, none, none, none, none, none⟩])
           ["a/x", "a/y"]
           = fetch_all_releases (fun s => s) "2024"
               (fun r => if r = "a/x" then HeadResult.status 200 else HeadResult.timedOut)
               (fun _ => ParseResult.feed [⟨none, none, none, none, none, none, none, none, none⟩])
               ((["a/x", "a/y"] : List String).filter (fun s => s != "a/y"))
       ∧ ∀ e ∈ fetch_all_releases (fun s => s) "2024"
             (fun r => if r = "a/x" then HeadResult.status 200 else HeadResult.timedOut)
             (fun _ => ParseResult.feed [⟨none, none, none, none, none, none, none, none, none⟩])
             ["a/x", "a/y"], e.repo ≠ "a/y") :=
  ⟨by decide,
   per_source_error_isolated (fun s => s) "2024"
     (fun r => if r = "a/x" then HeadResult.status 200 else HeadResult.timedOut)
     (fun _ => ParseResult.feed [⟨none, none, none, none, none, none, none, none, none⟩])
     ["a/x", "a/y"] "a/y" (by decide)⟩

/-- C8 (amended): each `fetch_repo_releases` call issues at most one
existence check (`requests.head`) and at most one content fetch
(`feedparser.parse`); the existence check carries
`timeout=REQUEST_TIMEOUT`, but the content fetch is issued by
`feedparser.parse(url)` with no timeout argument, hence carries none. -/
theorem request_discipline (unescape : String → String) (now repo : String)
    (h : HeadResult) (p : ParseResult) :
    ((fetch_repo_releases unescape now repo h p).2.filter Request.isHead).length ≤ 1
    ∧ ((fetch_repo_releases unescape now repo h p).2.filter Request.isContent).length ≤ 1
    ∧ (∀ q ∈ (fetch_repo_releases unescape now repo h p).2,
        q.isHead = true → q.timeout = some REQUEST_TIMEOUT)
    ∧ (∀ q ∈ (fetch_repo_releases unescape now repo h p).2,
        q.isContent = true → q.timeout = none) := by
  cases h with
  | timedOut =>
    simp [fetch_repo_releases, Request.isHead, Request.isContent, Request.timeout]
  | connError =>
    simp [fetch_repo_releases, Request.isHead, Request.isContent, Request.timeout]
  | reqError =>
    simp [fetch_repo_releases, Request.isHead, Request.isContent, Request.timeout]
  | status code =>
    by_cases h404 : code = 404
    · simp [fetch_repo_releases, h404, Request.isHead, Request.isContent,
        Request.timeout]
    · by_cases h200 : code = 200
      · cases p with
        | raised =>
          simp [fetch_repo_releases, h404, h200, Request.isHead,
            Request.isContent, Request.timeout]
        | feed entries =>
          cases entries <;>
            simp [fetch_repo_releases, h404, h200, Request.isHead,
              Request.isContent, Request.timeout]
      · simp [fetch_repo_releases, h404, h200, Request.isHead,
          Request.isContent, Request.timeout]

/-- C8 witness: a successful round against one repository, instantiating
`request_discipline`. -/
theorem request_discipline_witness :
    ((fetch_repo_releases (fun s => s) "2024" "a/x" (HeadResult.status 200)
        (ParseResult.feed [])).2.filter Request.isHead).length ≤ 1
    ∧ ((fetch_repo_releases (fun s => s) "2024" "a/x" (HeadResult.status 200)
        (ParseResult.feed [])).2.filter Request.isContent).length ≤ 1
    ∧ (∀ q ∈ (fetch_repo_releases (fun s => s) "2024" "a/x" (HeadResult.status 200)
        (ParseResult.feed [])).2,
        q.isHead = true → q.timeout = some REQUEST_TIMEOUT)
    ∧ (∀ q ∈ (fetch_repo_releases (fun s => s) "2024" "a/x" (HeadResult.status 200)
        (ParseResult.feed [])).2,
        q.isContent = true → q.timeout = none) :=
  request_discipline (fun s => s) "2024" "a/x" (HeadResult.status 200)
    (ParseResult.feed [])

/-- C8 counterexample to the claim as stated: in a round that reaches the
feed parse, not every issued request carries the configured per-request
timeout — the content fetch performed inside `feedparser.parse(url)` has
none. -/
theorem content_fetch_no_timeout :
    ((fetch_repo_releases (fun s => s) "2024" "a/x" (HeadResult.status 200)
        (ParseResult.feed [])).2.all
      (fun q => q.timeout == some REQUEST_TIMEOUT)) = false := by
  rfl

/-- C9: for the first feed entry of a successful fetch, a non-empty raw
summary is HTML-unescaped and then, exactly when its length exceeds 500
characters, stored as its first 500 characters followed by the ellipsis
marker; otherwise the unescaped summary is stored unchanged. -/
theorem summary_unescaped_truncated (unescape : String → String)
    (now repo : String) (e : FeedEntry) (rest : List FeedEntry)
    (hs : effectiveSummary e ≠ "") :
    ((fetch_repo_releases unescape now repo (HeadResult.status 200)
        (ParseResult.feed (e :: rest))).1.map (fun d => d.summary))
      = [if 500 < (unescape (effectiveSummary e)).length
          then (unescape (effectiveSummary e)).take 500 ++ "..."
          else unescape (effectiveSummary e)] := by
  simp [fetch_repo_releases, buildEntryData, hs]

/-- C9 witness: a five-character summary with the identity unescape is
stored unchanged. -/
theorem summary_unescaped_truncated_witness :
    effectiveSummary ⟨none, none, none, none, none, none, some "hello", none, none⟩ ≠ ""
    ∧ ((fetch_repo_releases (fun s => s) "2024" "a/x" (HeadResult.status 200)
          (ParseResult.feed [⟨none, none, none, none, none, none, some "hello", none, none⟩])).1.map
        (fun d => d.summary))
      = [if 500 < ((fun s => s)
            (effectiveSummary (⟨none, none, none, none, none, none, some "hello", none, none⟩ : FeedEntry))).length
          then ((fun s => s)
            (effectiveSummary (⟨none, none, none, none, none, none, some "hello", none, none⟩ : FeedEntry))).take 500 ++ "..."
          else (fun s => s)
            (effectiveSummary (⟨none, none, none, none, none, none, some "hello", none, none⟩ : FeedEntry))] :=
  ⟨by decide,
   summary_unescaped_truncated (fun s => s) "2024" "a/x"
     ⟨none, none, none, none, none, none, some "hello", none, none⟩ [] (by decide)⟩

/-- C4 (the code at the failing schedule): spawn worker 0, call
`restart_auto_refresh` (which clears the flag, waits one second while
worker 0 keeps sleeping, and spawns worker 1, whose first statement sets
the shared flag back to `True`); when worker 0's `time.sleep` later
returns, it reads the shared boolean `auto_refresh_running = True`,
performs a full cache rebuild (one `fetch_all_releases` invocation) and
stays in its loop — the claim expects zero rebuilds and loop termination. -/
theorem stale_tick_rebuilds :
    (worker_tick 0 (42 : Nat) 100
        (restart_auto_refresh 1
          (worker_enter 0
            ({ settings := ⟨300, 1800, true⟩,
               cache := { data := none, timestamp := 0 },
               auto_refresh_running := false,
               live_workers := [],
               fetch_count := 0 } : AppState Nat)))).fetch_count = 1
    ∧ 0 ∈ (worker_tick 0 (42 : Nat) 100
        (restart_auto_refresh 1
          (worker_enter 0
            ({ settings := ⟨300, 1800, true⟩,
               cache := { data := none, timestamp := 0 },
               auto_refresh_running := false,
               live_workers := [],
               fetch_count := 0 } : AppState Nat)))).live_workers := by
  decide

/-- C10: the `/stop_auto_refresh` route only clears the running flag; the
cache entry, the settings snapshot, the set of live workers and the fetch
counter are all left unchanged, for every prior state. -/
theorem stop_auto_refresh_frame {R : Type} (st : AppState R) :
    (stop_auto_refresh st).settings = st.settings
    ∧ (stop_auto_refresh st).cache = st.cache
    ∧ (stop_auto_refresh st).live_workers = st.live_workers
    ∧ (stop_auto_refresh st).fetch_count = st.fetch_count
    ∧ (stop_auto_refresh st).auto_refresh_running = false :=
  ⟨rfl, rfl, rfl, rfl, rfl⟩

end Agg
